import Mathlib

/-!
Verification of the Rive-Gargoyle control page (`src/main.js`).

The repository contains two variants of the same binder in one file:
* an enum/viseme binder (the `CONFIG`/`visemes` half): a keydown handler for
  keys 1–9, per-label buttons, and a 1000 ms auto-reset timer;
* a generic state-machine-input binder (the documented half): trigger,
  boolean and number controls plus exported helpers `triggerInput`,
  `setBooleanInput`, `setNumberInput` and the `showLoadError` error path.

We embed both shallowly.  DOM state is represented by the fields the code
reads or writes (readout text, per-button `active` class, placeholder
text/colour, console log); `setTimeout`/`clearTimeout` are modelled as a
multiset of outstanding tasks `(id, delay)` plus the `resetTimer` handle
variable, with fresh ids drawn from a counter.  Numbers are modelled
exactly over `ℚ`.
-/

set_option autoImplicit false

namespace RiveGargoyle

/-! ### JavaScript numeric string parsing (`parseInt`, `parseFloat`) -/

/-- Value of a decimal digit character, `none` for non-digits. -/
def decDigit? (c : Char) : Option Nat :=
  if '0' ≤ c ∧ c ≤ '9' then some (c.toNat - '0'.toNat) else none

/-- Value of a hexadecimal digit character, `none` otherwise. -/
def hexDigit? (c : Char) : Option Nat :=
  if '0' ≤ c ∧ c ≤ '9' then some (c.toNat - '0'.toNat)
  else if 'a' ≤ c ∧ c ≤ 'f' then some (c.toNat - 'a'.toNat + 10)
  else if 'A' ≤ c ∧ c ≤ 'F' then some (c.toNat - 'A'.toNat + 10)
  else none

/-- Parse a longest prefix of digits in base `base` (digit function `dig`),
accumulating into `acc`; `seen` records whether a digit has been read.
Returns `none` when no digit at all was read (JavaScript `NaN`). -/
def parseDigits (dig : Char → Option Nat) (base : Nat) :
    List Char → Nat → Bool → Option Nat
  | [], acc, seen => if seen then some acc else none
  | c :: rest, acc, seen =>
    match dig c with
    | some d => parseDigits dig base rest (acc * base + d) true
    | none => if seen then some acc else none

/-- JavaScript whitespace (the cases relevant to `event.key` strings). -/
def jsWhitespace (c : Char) : Bool :=
  c = ' ' ∨ c = '\t' ∨ c = '\n' ∨ c = '\r'

/-- The digits-and-prefix part of `parseInt` (radix unspecified): a `0x`/`0X`
prefix selects base 16, otherwise base 10. -/
def parseIntBody (cs : List Char) : Option Nat :=
  match cs with
  | '0' :: 'x' :: rest => parseDigits hexDigit? 16 rest 0 false
  | '0' :: 'X' :: rest => parseDigits hexDigit? 16 rest 0 false
  | _ => parseDigits decDigit? 10 cs 0 false

/-- Model of JavaScript `parseInt(s)` (no explicit radix): skip leading
whitespace, optional sign, then digits; `none` models `NaN`. -/
def jsParseInt (s : String) : Option Int :=
  let cs := s.toList.dropWhile jsWhitespace
  match cs with
  | '-' :: rest => (parseIntBody rest).map (fun n => -(n : Int))
  | '+' :: rest => (parseIntBody rest).map (fun n => (n : Int))
  | _ => (parseIntBody cs).map (fun n => (n : Int))

/-- Parse a longest prefix of decimal digits; returns the value, the number
of digits consumed, and the rest of the characters. -/
def takeDecDigits : List Char → Nat → Nat → Nat × Nat × List Char
  | [], acc, cnt => (acc, cnt, [])
  | c :: rest, acc, cnt =>
    match decDigit? c with
    | some d => takeDecDigits rest (acc * 10 + d) (cnt + 1)
    | none => (acc, cnt, c :: rest)

/-- Model of JavaScript `parseFloat(s)` for plain decimal notation (the only
form a range control's `value` string takes): optional sign, integer digits,
optional fractional digits; `none` models `NaN`.  The result is an exact
rational. -/
def jsParseFloat (s : String) : Option ℚ :=
  let cs := s.toList.dropWhile jsWhitespace
  let signed : Bool × List Char :=
    match cs with
    | '-' :: rest => (true, rest)
    | '+' :: rest => (false, rest)
    | _ => (false, cs)
  let (ip, ic, rest) := takeDecDigits signed.2 0 0
  let body : Option ℚ :=
    match rest with
    | '.' :: rest2 =>
      let (fp, fc, _) := takeDecDigits rest2 0 0
      if ic = 0 ∧ fc = 0 then none
      else some ((ip : ℚ) + (fp : ℚ) / (10 : ℚ) ^ fc)
    | _ => if ic = 0 then none else some (ip : ℚ)
  body.map (fun q => if signed.1 then -q else q)

/-- Model of JavaScript `Number.prototype.toFixed(1)` over exact rationals:
sign of the argument, then the magnitude rounded to tenths, half away from
zero, printed with exactly one fractional digit. -/
def jsToFixed1 (q : ℚ) : String :=
  let sign := if q < 0 then "-" else ""
  let m := (Int.floor (10 * |q| + 1 / 2)).toNat
  sign ++ toString (m / 10) ++ "." ++ toString (m % 10)

/-! ### Enum/viseme variant: state and operations

Module-level mutable state of the enum variant (`currentEnumValues`,
`visemeProperty`, `resetTimer`) together with the DOM pieces the handlers
touch (the current-value readout and each button's `active` class) and the
browser's timer queue.  A scheduled task is a pair `(id, delay)`; `resetTimer`
holds the id last stored in the variable (JavaScript keeps a stale handle
after the timeout fires, and so do we). -/

/-- `RESET_DELAY_MS = 1000` in the source. -/
def RESET_DELAY_MS : Nat := 1000

/-- State of the enum/viseme binder. -/
structure EnumState where
  /-- `currentEnumValues`: the declared label sequence of the enum. -/
  labels : List String
  /-- whether `visemeProperty` is non-null. -/
  hasProperty : Bool
  /-- `visemeProperty.value` (meaningful only when `hasProperty`). -/
  value : String
  /-- text of the current-value readout (`current-visemes`). -/
  readout : String
  /-- `active` class of each enum button, in declaration order. -/
  active : List Bool
  /-- the `resetTimer` variable: the stored timeout handle, if any. -/
  resetTimer : Option Nat
  /-- outstanding (scheduled, not yet fired or cleared) tasks `(id, delay)`. -/
  pending : List (Nat × Nat)
  /-- fresh timeout-id counter. -/
  nextId : Nat
deriving DecidableEq, Repr

/-- State right after `createEnumControl` ran with declared labels `labels`
and initial property value `v0`: readout shows `enumProperty.value || 'none'`,
the button whose label equals the current value is marked active, no timer. -/
def mkInit (labels : List String) (v0 : String) : EnumState :=
  { labels := labels
    hasProperty := true
    value := v0
    readout := if v0 = "" then "none" else v0
    active := labels.map (fun l => l == v0)
    resetTimer := none
    pending := []
    nextId := 0 }

/-- State when the `visemes` property was not found: `createEnumControl` never
runs, `currentEnumValues` stays `[]`, no buttons exist. -/
def mkInitNoProp : EnumState :=
  { labels := []
    hasProperty := false
    value := ""
    readout := ""
    active := []
    resetTimer := none
    pending := []
    nextId := 0 }

/-- `updateCurrentDisplay('visemes', v)`: rewrite the readout text. -/
def updateCurrentDisplay (v : String) (s : EnumState) : EnumState :=
  { s with readout := v }

/-- `updateVisemeUI(v)`: update the readout, then toggle each button's
`active` class on whether its `dataset.value` equals `v`. -/
def updateVisemeUI (v : String) (s : EnumState) : EnumState :=
  { s with readout := v, active := s.labels.map (fun l => l == v) }

/-- `resetVisemeToNone()`: if the property exists and `'none'` is among the
declared labels, write `'none'` through and refresh the UI; else do nothing. -/
def resetVisemeToNone (s : EnumState) : EnumState :=
  if s.hasProperty = true ∧ "none" ∈ s.labels then
    updateVisemeUI "none" { s with value := "none" }
  else s

/-- `if (resetTimer) { clearTimeout(resetTimer); resetTimer = null; }`:
remove the referenced task from the queue (a stale handle removes nothing)
and null the variable. -/
def clearReset (s : EnumState) : EnumState :=
  match s.resetTimer with
  | some t => { s with
                pending := s.pending.filter (fun p => p.1 != t)
                resetTimer := none }
  | none => s

/-- `resetTimer = setTimeout(resetVisemeToNone, RESET_DELAY_MS)`: enqueue a
fresh task and store its handle. -/
def scheduleReset (s : EnumState) : EnumState :=
  { s with
    pending := s.pending ++ [(s.nextId, RESET_DELAY_MS)]
    resetTimer := some s.nextId
    nextId := s.nextId + 1 }

/-- The `keydown` listener: `parseInt(event.key)`; if the result is in
`[1,9]` and labels were discovered, clear any pending reset, then if the
0-based index is in range and the property exists, write the indexed label
through, refresh the UI and schedule a fresh reset. -/
def onKeydown (key : String) (s : EnumState) : EnumState :=
  match jsParseInt key with
  | none => s
  | some n =>
    if 1 ≤ n ∧ n ≤ 9 ∧ 0 < s.labels.length then
      if (n - 1).toNat < (clearReset s).labels.length ∧ (clearReset s).hasProperty = true then
        scheduleReset (updateVisemeUI ((clearReset s).labels.getD (n - 1).toNat "")
          { clearReset s with value := (clearReset s).labels.getD (n - 1).toNat "" })
      else clearReset s
    else s

/-- The click listener of button `i` (buttons exist exactly for indices below
`labels.length`): write the button's label through, strip `active` from every
button, mark this one active, and update the readout.  The timer is not
touched. -/
def onClick (i : Nat) (s : EnumState) : EnumState :=
  match s.labels.get? i with
  | some v =>
    updateCurrentDisplay v
      { s with
        value := v
        active := (List.range s.labels.length).map (fun j => j == i) }
  | none => s

/-- Task `t` of the timer queue fires (possible only while it is still
outstanding): it leaves the queue and its callback `resetVisemeToNone` runs.
The `resetTimer` variable keeps the stale handle, as in JavaScript. -/
def fireTimer (t : Nat) (s : EnumState) : EnumState :=
  if s.pending.any (fun p => p.1 == t) then
    resetVisemeToNone { s with pending := s.pending.filter (fun p => p.1 != t) }
  else s

/-- Events of the enum variant. -/
inductive Ev where
  | keydown (key : String)
  | click (i : Nat)
  | fire (t : Nat)
deriving DecidableEq, Repr

/-- One step of the system. -/
def step (s : EnumState) : Ev → EnumState
  | .keydown k => onKeydown k s
  | .click i => onClick i s
  | .fire t => fireTimer t s

/-- The states reachable from either initial state. -/
inductive Reachable : EnumState → Prop where
  | init (labels : List String) (v0 : String) : Reachable (mkInit labels v0)
  | initNoProp : Reachable mkInitNoProp
  | step (s : EnumState) (ev : Ev) : Reachable s → Reachable (step s ev)

/-- Ids of the outstanding tasks. -/
def pendingIds (s : EnumState) : List Nat := s.pending.map Prod.fst

/-! ### Basic lemmas about the operations -/

@[simp] theorem clearReset_labels (s : EnumState) : (clearReset s).labels = s.labels := by
  unfold clearReset; cases s.resetTimer <;> rfl

@[simp] theorem clearReset_hasProperty (s : EnumState) :
    (clearReset s).hasProperty = s.hasProperty := by
  unfold clearReset; cases s.resetTimer <;> rfl

@[simp] theorem clearReset_value (s : EnumState) : (clearReset s).value = s.value := by
  unfold clearReset; cases s.resetTimer <;> rfl

@[simp] theorem clearReset_readout (s : EnumState) : (clearReset s).readout = s.readout := by
  unfold clearReset; cases s.resetTimer <;> rfl

@[simp] theorem clearReset_active (s : EnumState) : (clearReset s).active = s.active := by
  unfold clearReset; cases s.resetTimer <;> rfl

@[simp] theorem clearReset_nextId (s : EnumState) : (clearReset s).nextId = s.nextId := by
  unfold clearReset; cases s.resetTimer <;> rfl

@[simp] theorem clearReset_resetTimer (s : EnumState) : (clearReset s).resetTimer = none := by
  unfold clearReset; cases h : s.resetTimer <;> simp [h]

@[simp] theorem onClick_resetTimer (i : Nat) (s : EnumState) :
    (onClick i s).resetTimer = s.resetTimer := by
  unfold onClick; cases s.labels.get? i <;> rfl

@[simp] theorem onClick_pending (i : Nat) (s : EnumState) :
    (onClick i s).pending = s.pending := by
  unfold onClick; cases s.labels.get? i <;> rfl

@[simp] theorem onClick_nextId (i : Nat) (s : EnumState) :
    (onClick i s).nextId = s.nextId := by
  unfold onClick; cases s.labels.get? i <;> rfl

@[simp] theorem resetVisemeToNone_pending (s : EnumState) :
    (resetVisemeToNone s).pending = s.pending := by
  unfold resetVisemeToNone updateVisemeUI; split <;> rfl

@[simp] theorem resetVisemeToNone_resetTimer (s : EnumState) :
    (resetVisemeToNone s).resetTimer = s.resetTimer := by
  unfold resetVisemeToNone updateVisemeUI; split <;> rfl

@[simp] theorem resetVisemeToNone_nextId (s : EnumState) :
    (resetVisemeToNone s).nextId = s.nextId := by
  unfold resetVisemeToNone updateVisemeUI; split <;> rfl

@[simp] theorem fireTimer_nextId (t : Nat) (s : EnumState) :
    (fireTimer t s).nextId = s.nextId := by
  unfold fireTimer; split <;> simp

@[simp] theorem fireTimer_resetTimer (t : Nat) (s : EnumState) :
    (fireTimer t s).resetTimer = s.resetTimer := by
  unfold fireTimer; split <;> simp

/-! ### The timer-queue invariant -/

/-- In every reachable state: the queue holds at most one task, and when it
does, that task is the stored `resetTimer` handle with delay
`RESET_DELAY_MS`; stored handles and queued ids are below the fresh-id
counter. -/
def Inv (s : EnumState) : Prop :=
  (s.pending = [] ∨ ∃ t, s.pending = [(t, RESET_DELAY_MS)] ∧ s.resetTimer = some t)
  ∧ (∀ t, s.resetTimer = some t → t < s.nextId)
  ∧ (∀ p ∈ s.pending, p.1 < s.nextId)

theorem inv_mkInit (labels : List String) (v0 : String) : Inv (mkInit labels v0) := by
  refine ⟨Or.inl rfl, ?_, ?_⟩ <;> simp [mkInit]

theorem inv_mkInitNoProp : Inv mkInitNoProp := by
  refine ⟨Or.inl rfl, ?_, ?_⟩ <;> simp [mkInitNoProp]

theorem clearReset_pending_of_inv {s : EnumState} (h : Inv s) :
    (clearReset s).pending = [] := by
  unfold clearReset
  cases ht : s.resetTimer with
  | none =>
    rcases h.1 with h1 | ⟨t, h1, h2⟩
    · simpa using h1
    · rw [ht] at h2; cases h2
  | some t =>
    rcases h.1 with h1 | ⟨t', h1, h2⟩
    · simp [h1]
    · rw [ht] at h2
      cases h2
      simp [h1]

theorem inv_onKeydown {s : EnumState} (h : Inv s) (key : String) :
    Inv (onKeydown key s) := by
  unfold onKeydown
  split
  · exact h
  · split
    · split
      · refine ⟨Or.inr ⟨s.nextId, ?_, ?_⟩, ?_, ?_⟩
        · simp [scheduleReset, updateVisemeUI, clearReset_pending_of_inv h]
        · simp [scheduleReset, updateVisemeUI]
        · intro t ht
          simp [scheduleReset, updateVisemeUI] at ht
          simp [scheduleReset, updateVisemeUI, ht]
        · intro p hp'
          simp [scheduleReset, updateVisemeUI, clearReset_pending_of_inv h] at hp'
          simp [scheduleReset, updateVisemeUI, hp']
      · refine ⟨Or.inl (clearReset_pending_of_inv h), ?_, ?_⟩
        · intro t ht; rw [clearReset_resetTimer] at ht; cases ht
        · intro p hp'; rw [clearReset_pending_of_inv h] at hp'; cases hp'
    · exact h

theorem inv_onClick {s : EnumState} (h : Inv s) (i : Nat) : Inv (onClick i s) := by
  refine ⟨?_, ?_, ?_⟩
  · rcases h.1 with h1 | ⟨t, h1, h2⟩
    · exact Or.inl (by simp [h1])
    · exact Or.inr ⟨t, by simp [h1], by simp [h2]⟩
  · intro t ht; rw [onClick_resetTimer] at ht
    rw [onClick_nextId]; exact h.2.1 t ht
  · intro p hp; rw [onClick_pending] at hp
    rw [onClick_nextId]; exact h.2.2 p hp

theorem inv_fireTimer {s : EnumState} (h : Inv s) (t : Nat) : Inv (fireTimer t s) := by
  unfold fireTimer
  split
  · refine ⟨?_, ?_, ?_⟩
    · rcases h.1 with h1 | ⟨t', h1, h2⟩
      · exact Or.inl (by simp [h1])
      · by_cases htt : t' = t
        · subst htt; exact Or.inl (by simp [h1])
        · refine Or.inr ⟨t', ?_, by simp [h2]⟩
          simp [h1, htt]
    · intro t' ht'
      simp only [resetVisemeToNone_resetTimer] at ht'
      simp only [resetVisemeToNone_nextId]
      exact h.2.1 t' ht'
    · intro p hp
      simp only [resetVisemeToNone_pending] at hp
      simp only [resetVisemeToNone_nextId]
      exact h.2.2 p (List.mem_of_mem_filter hp)
  · exact h

theorem inv_step {s : EnumState} (h : Inv s) (ev : Ev) : Inv (step s ev) := by
  cases ev with
  | keydown k => exact inv_onKeydown h k
  | click i => exact inv_onClick h i
  | fire t => exact inv_fireTimer h t

/-- Every reachable state satisfies the invariant. -/
theorem inv_of_reachable {s : EnumState} (h : Reachable s) : Inv s := by
  induction h with
  | init labels v0 => exact inv_mkInit labels v0
  | initNoProp => exact inv_mkInitNoProp
  | step s ev _ ih => exact inv_step ih ev

/-! ### Branch lemmas for the keydown handler

The digit key for the 1-based index `i + 1` is any key string whose
`parseInt` is `i + 1`. -/

theorem onKeydown_of_parse_none {s : EnumState} {key : String}
    (hkey : jsParseInt key = none) : onKeydown key s = s := by
  unfold onKeydown
  split
  · rfl
  · next n heq => rw [hkey] at heq; cases heq

theorem onKeydown_in_range {s : EnumState} {key : String} {i : Nat} {v : String}
    (hkey : jsParseInt key = some ((i : Int) + 1)) (hi : i < 9)
    (hp : s.hasProperty = true) (hv : s.labels.get? i = some v) :
    onKeydown key s = scheduleReset (updateVisemeUI v { clearReset s with value := v }) := by
  have hlen : i < s.labels.length := (List.get?_eq_some.mp hv).1
  have hgetD : s.labels.getD i "" = v := by
    simp only [List.getD, ← List.get?_eq_getElem?, hv, Option.getD_some]
  unfold onKeydown
  split
  · next heq => rw [hkey] at heq; cases heq
  · next n heq =>
    rw [hkey] at heq
    injection heq with hn
    subst hn
    rw [if_pos ⟨by omega, by omega, by omega⟩]
    have hidx : (((i : Int) + 1) - 1).toNat = i := by omega
    rw [hidx, if_pos ⟨by simpa using hlen, by simpa using hp⟩]
    rw [clearReset_labels, hgetD]

theorem onKeydown_out_of_range {s : EnumState} {key : String} {i : Nat}
    (hkey : jsParseInt key = some ((i : Int) + 1)) (hi : i < 9)
    (hlen : s.labels.length ≤ i) (hne : s.labels ≠ []) :
    onKeydown key s = clearReset s := by
  have h0 : 0 < s.labels.length := List.length_pos.mpr hne
  unfold onKeydown
  split
  · next heq => rw [hkey] at heq; cases heq
  · next n heq =>
    rw [hkey] at heq
    injection heq with hn
    subst hn
    rw [if_pos ⟨by omega, by omega, by omega⟩]
    have hidx : (((i : Int) + 1) - 1).toNat = i := by omega
    rw [hidx, if_neg]
    intro hcon
    rw [clearReset_labels] at hcon
    omega

theorem onKeydown_empty_labels {s : EnumState} (key : String) (h : s.labels = []) :
    onKeydown key s = s := by
  unfold onKeydown
  split
  · rfl
  · rw [if_neg]
    intro hcon
    rw [h] at hcon
    simp at hcon

/-- Any keydown either leaves the state alone, only clears the timer, or
takes the full write-through-and-schedule branch. -/
theorem onKeydown_cases (key : String) (s : EnumState) :
    onKeydown key s = s ∨ onKeydown key s = clearReset s ∨
    ∃ v, onKeydown key s =
      scheduleReset (updateVisemeUI v { clearReset s with value := v }) := by
  unfold onKeydown
  split
  · exact Or.inl rfl
  · split
    · split
      · exact Or.inr (Or.inr ⟨_, rfl⟩)
      · exact Or.inr (Or.inl rfl)
    · exact Or.inl rfl

/-! ### Claims about the enum/viseme variant -/

/-- C1 counterexample: with declared labels `["none", "AA"]` and a reset
task pending (after pressing key 2), pressing key 3 — whose 0-based index 2
is out of range — is not a no-op: the handler clears the pending reset task
before the bounds check, so the state changes. -/
theorem keydown_out_of_range_not_noop :
    onKeydown "3" (onKeydown "2" (mkInit ["none", "AA"] "none")) ≠
      onKeydown "2" (mkInit ["none", "AA"] "none") := by decide

/-- C1 (amended): for every reachable state, a keydown whose key parses to
`i + 1` with `i < 9`: when `i` is within the declared label count (and the
property exists) it writes label `i` through and leaves exactly the one
freshly scheduled reset task outstanding; when `i` is out of range it leaves
the value, readout and button highlighting unchanged, but — unless no labels
were discovered at all, in which case it is a full no-op — it cancels any
pending reset task, leaving none outstanding. -/
theorem keydown_shortcut_spec (s : EnumState) (hr : Reachable s) (i : Nat)
    (key : String) (hkey : jsParseInt key = some ((i : Int) + 1)) (hi : i < 9) :
    (∀ v, s.hasProperty = true → s.labels.get? i = some v →
      (onKeydown key s).value = v ∧
      (onKeydown key s).pending = [(s.nextId, RESET_DELAY_MS)] ∧
      (onKeydown key s).resetTimer = some s.nextId) ∧
    (s.labels.length ≤ i →
      (s.labels = [] → onKeydown key s = s) ∧
      (s.labels ≠ [] →
        (onKeydown key s).value = s.value ∧
        (onKeydown key s).readout = s.readout ∧
        (onKeydown key s).active = s.active ∧
        (onKeydown key s).pending = [] ∧
        (onKeydown key s).resetTimer = none)) := by
  have hinv := inv_of_reachable hr
  constructor
  · intro v hp hv
    rw [onKeydown_in_range hkey hi hp hv]
    refine ⟨?_, ?_, ?_⟩
    · simp [scheduleReset, updateVisemeUI]
    · simp [scheduleReset, updateVisemeUI, clearReset_pending_of_inv hinv]
    · simp [scheduleReset, updateVisemeUI]
  · intro hlen
    constructor
    · intro hemp
      exact onKeydown_empty_labels key hemp
    · intro hne
      rw [onKeydown_out_of_range hkey hi hlen hne]
      exact ⟨clearReset_value s, clearReset_readout s, clearReset_active s,
        clearReset_pending_of_inv hinv, clearReset_resetTimer s⟩

/-- Witness for C1: from the fresh state with labels `["none", "AA"]`,
pressing key 1 sets the value to `"none"` and schedules task 0. -/
theorem keydown_shortcut_spec_witness :
    (onKeydown "1" (mkInit ["none", "AA"] "none")).value = "none" ∧
    (onKeydown "1" (mkInit ["none", "AA"] "none")).pending = [(0, RESET_DELAY_MS)] ∧
    (onKeydown "1" (mkInit ["none", "AA"] "none")).resetTimer = some 0 :=
  (keydown_shortcut_spec (mkInit ["none", "AA"] "none")
    (Reachable.init ["none", "AA"] "none") 0 "1" (by decide) (by decide)).1
    "none" rfl rfl

/-- C2 counterexample: after pressing key 2 the non-`"none"` value `"AA"` is
held and task 0 is pending; clicking the button for `"none"` applies the new
label but cancels nothing and schedules nothing — the old task is still the
only outstanding one and the fresh-id counter is untouched. -/
theorem click_does_not_touch_timer_cex :
    (onKeydown "2" (mkInit ["none", "AA"] "none")).value = "AA" ∧
    (onKeydown "2" (mkInit ["none", "AA"] "none")).pending = [(0, RESET_DELAY_MS)] ∧
    (onClick 0 (onKeydown "2" (mkInit ["none", "AA"] "none"))).value = "none" ∧
    (onClick 0 (onKeydown "2" (mkInit ["none", "AA"] "none"))).pending
      = [(0, RESET_DELAY_MS)] ∧
    (onClick 0 (onKeydown "2" (mkInit ["none", "AA"] "none"))).nextId
      = (onKeydown "2" (mkInit ["none", "AA"] "none")).nextId := by decide

/-- C2 (amended): the keypress path cancels any pending reset task before
applying the new value and schedules exactly one fresh task with the fixed
1000 ms delay; a direct button activation applies the new label but neither
cancels nor schedules a reset task. -/
theorem reset_task_discipline :
    RESET_DELAY_MS = 1000 ∧
    (∀ s, Reachable s → ∀ (key : String) (i : Nat) (v : String),
      jsParseInt key = some ((i : Int) + 1) → i < 9 → s.hasProperty = true →
      s.labels.get? i = some v →
      (∀ t, t ∈ pendingIds s → t ∉ pendingIds (onKeydown key s)) ∧
      (onKeydown key s).pending = [(s.nextId, RESET_DELAY_MS)]) ∧
    (∀ (i : Nat) (s : EnumState),
      (onClick i s).resetTimer = s.resetTimer ∧
      (onClick i s).pending = s.pending ∧
      (onClick i s).nextId = s.nextId) := by
  refine ⟨rfl, ?_, ?_⟩
  · intro s hr key i v hkey hi hp hv
    have hinv := inv_of_reachable hr
    rw [onKeydown_in_range hkey hi hp hv]
    constructor
    · intro t ht
      obtain ⟨p, hpmem, hpt⟩ := List.mem_map.mp ht
      have htlt : t < s.nextId := hpt ▸ hinv.2.2 p hpmem
      simp [pendingIds, scheduleReset, updateVisemeUI,
        clearReset_pending_of_inv hinv]
      omega
    · simp [scheduleReset, updateVisemeUI, clearReset_pending_of_inv hinv]
  · intro i s
    exact ⟨onClick_resetTimer i s, onClick_pending i s, onClick_nextId i s⟩

/-- Witness for C2: pressing key 1 while task 0 is pending cancels task 0
and leaves exactly the fresh task 1 outstanding. -/
theorem reset_task_discipline_witness :
    0 ∉ pendingIds (onKeydown "1" (onKeydown "2" (mkInit ["none", "AA"] "none"))) ∧
    (onKeydown "1" (onKeydown "2" (mkInit ["none", "AA"] "none"))).pending
      = [(1, RESET_DELAY_MS)] := by
  have h := reset_task_discipline.2.1
    (onKeydown "2" (mkInit ["none", "AA"] "none"))
    (Reachable.step (mkInit ["none", "AA"] "none") (Ev.keydown "2")
      (Reachable.init ["none", "AA"] "none"))
    "1" 0 "none" (by decide) (by decide) (by decide) (by decide)
  exact ⟨h.1 0 (by decide), h.2⟩

/-- C3 counterexample: with labels `["none", "AA", "E", "O"]`, pressing
key 2 selects 0-based index 1, whose label is `"AA"`, not `"E"` as the
scenario claims. -/
theorem scenario_press2_not_E :
    (onKeydown "2" (mkInit ["none", "AA", "E", "O"] "none")).value = "AA" ∧
    (onKeydown "2" (mkInit ["none", "AA", "E", "O"] "none")).value ≠ "E" ∧
    (onKeydown "2" (mkInit ["none", "AA", "E", "O"] "none")).readout ≠ "E" := by
  decide

/-- C3 (amended): with labels `["none", "AA", "E", "O"]`, pressing key 2
sets the value to `"AA"` (the label at 0-based index 1), the readout shows
`"AA"` and exactly the second button is active; when the scheduled task
fires with no further input, the value reverts to `"none"` and the readout
shows `"none"`. -/
theorem scenario_press2_then_reset :
    (onKeydown "2" (mkInit ["none", "AA", "E", "O"] "none")).value = "AA" ∧
    (onKeydown "2" (mkInit ["none", "AA", "E", "O"] "none")).readout = "AA" ∧
    (onKeydown "2" (mkInit ["none", "AA", "E", "O"] "none")).active
      = [false, true, false, false] ∧
    (onKeydown "2" (mkInit ["none", "AA", "E", "O"] "none")).pending
      = [(0, RESET_DELAY_MS)] ∧
    (fireTimer 0 (onKeydown "2" (mkInit ["none", "AA", "E", "O"] "none"))).value
      = "none" ∧
    (fireTimer 0 (onKeydown "2" (mkInit ["none", "AA", "E", "O"] "none"))).readout
      = "none" := by decide

/-- C4: in every reachable state at most one reset task is outstanding, and
any event that allocates a new task (observable as a changed fresh-id
counter) removes every previously outstanding task from the queue. -/
theorem at_most_one_reset_task (s : EnumState) (hr : Reachable s) :
    (pendingIds s).length ≤ 1 ∧
    (∀ ev : Ev, ∀ t, t ∈ pendingIds s → (step s ev).nextId ≠ s.nextId →
      t ∉ pendingIds (step s ev)) := by
  have hinv := inv_of_reachable hr
  constructor
  · rcases hinv.1 with h1 | ⟨t, h1, _⟩ <;> simp [pendingIds, h1]
  · intro ev t ht hid
    obtain ⟨p, hpmem, hpt⟩ := List.mem_map.mp ht
    have htlt : t < s.nextId := hpt ▸ hinv.2.2 p hpmem
    cases ev with
    | click i => exact absurd (onClick_nextId i s) hid
    | fire t' => exact absurd (fireTimer_nextId t' s) hid
    | keydown k =>
      rcases onKeydown_cases k s with hcase | hcase | ⟨v, hcase⟩
      · exact absurd (by rw [show step s (Ev.keydown k) = onKeydown k s from rfl,
          hcase]) hid
      · exact absurd (by rw [show step s (Ev.keydown k) = onKeydown k s from rfl,
          hcase, clearReset_nextId]) hid
      · show t ∉ pendingIds (onKeydown k s)
        rw [hcase]
        simp [pendingIds, scheduleReset, updateVisemeUI,
          clearReset_pending_of_inv hinv]
        omega

/-- Witness for C4: the fresh state with labels `["none"]` has at most one
outstanding task. -/
theorem at_most_one_reset_task_witness :
    (pendingIds (mkInit ["none"] "none")).length ≤ 1 :=
  (at_most_one_reset_task (mkInit ["none"] "none")
    (Reachable.init ["none"] "none")).1

/-- C6: when `"none"` is not among the declared labels, a firing reset task
leaves the held value, the readout and the button highlighting unchanged. -/
theorem reset_keeps_value_without_none (s : EnumState) (t : Nat)
    (h : "none" ∉ s.labels) :
    (fireTimer t s).value = s.value ∧ (fireTimer t s).readout = s.readout ∧
    (fireTimer t s).active = s.active := by
  unfold fireTimer
  split
  · unfold resetVisemeToNone
    rw [if_neg]
    · exact ⟨rfl, rfl, rfl⟩
    · intro hcon
      exact h (by simpa using hcon.2)
  · exact ⟨rfl, rfl, rfl⟩

/-- Witness for C6: labels `["AA"]` (no `"none"`): after pressing key 1 the
pending task fires and the value, readout and highlighting stay as they
were. -/
theorem reset_keeps_value_without_none_witness :
    (fireTimer 0 (onKeydown "1" (mkInit ["AA"] ""))).value
      = (onKeydown "1" (mkInit ["AA"] "")).value ∧
    (fireTimer 0 (onKeydown "1" (mkInit ["AA"] ""))).readout
      = (onKeydown "1" (mkInit ["AA"] "")).readout ∧
    (fireTimer 0 (onKeydown "1" (mkInit ["AA"] ""))).active
      = (onKeydown "1" (mkInit ["AA"] "")).active :=
  reset_keeps_value_without_none (onKeydown "1" (mkInit ["AA"] "")) 0 (by decide)

/-- C7: activating the button for the label at position `i` writes that
label through, sets the readout to it, and leaves exactly that button
carrying the active mark — every other button's mark is cleared. -/
theorem click_roundtrip (s : EnumState) (i : Nat) (v : String)
    (h : s.labels.get? i = some v) :
    (onClick i s).value = v ∧ (onClick i s).readout = v ∧
    (onClick i s).active.get? i = some true ∧
    (∀ j, j < s.labels.length → j ≠ i →
      (onClick i s).active.get? j = some false) := by
  have hlen : i < s.labels.length := (List.get?_eq_some.mp h).1
  unfold onClick
  split
  · next v' heq =>
    rw [h] at heq
    injection heq with hv
    subst hv
    refine ⟨rfl, rfl, ?_, ?_⟩
    · simp [updateCurrentDisplay, List.getElem?_map, List.getElem?_range hlen]
    · intro j hj hne
      simp [updateCurrentDisplay, List.getElem?_map, List.getElem?_range hj, hne]
  · next heq =>
    rw [h] at heq
    cases heq

/-- Witness for C7: clicking button 1 (`"AA"`) of `["none", "AA"]` makes it
the only active button and puts `"AA"` in the readout. -/
theorem click_roundtrip_witness :
    (onClick 1 (mkInit ["none", "AA"] "none")).value = "AA" ∧
    (onClick 1 (mkInit ["none", "AA"] "none")).readout = "AA" ∧
    (onClick 1 (mkInit ["none", "AA"] "none")).active.get? 1 = some true ∧
    (onClick 1 (mkInit ["none", "AA"] "none")).active.get? 0 = some false := by
  have h := click_roundtrip (mkInit ["none", "AA"] "none") 1 "AA" rfl
  exact ⟨h.1, h.2.1, h.2.2.1, h.2.2.2 0 (by decide) (by decide)⟩

/-- C10: a keydown whose key does not parse to an integer in `[1, 9]`
(for example `"0"`, a letter, or a function key) changes nothing at all. -/
theorem keydown_non_shortcut_noop (s : EnumState) (key : String)
    (h : ∀ n : Int, jsParseInt key = some n → ¬(1 ≤ n ∧ n ≤ 9)) :
    onKeydown key s = s := by
  unfold onKeydown
  split
  · rfl
  · next n heq =>
    rw [if_neg]
    intro hcon
    exact h n heq ⟨hcon.1, hcon.2.1⟩

/-- Witness for C10: pressing key 0 while a reset task is pending changes
nothing (value, display and the pending task all survive). -/
theorem keydown_non_shortcut_noop_witness :
    onKeydown "0" (onKeydown "2" (mkInit ["none", "AA"] "none"))
      = onKeydown "2" (mkInit ["none", "AA"] "none") :=
  keydown_non_shortcut_noop (onKeydown "2" (mkInit ["none", "AA"] "none")) "0"
    (by
      intro n hn
      have h0 : jsParseInt "0" = some 0 := by decide
      rw [h0] at hn
      injection hn with hn'
      subst hn'
      decide)

/-! ### Load-error handling (both variants)

The page's placeholder element and console, as touched by the two
`onLoadError` callbacks: the enum variant only logs, the generic variant
logs and calls `showLoadError`, which rewrites the placeholder's HTML and
colour. -/

/-- The page pieces the load-error paths touch. -/
structure Page where
  /-- `innerHTML` of the `.placeholder-text` element. -/
  placeholderHTML : String
  /-- `style.color` of the `.placeholder-text` element. -/
  placeholderColor : String
  /-- `console.error` lines, in order. -/
  consoleErrors : List String
deriving DecidableEq, Repr

/-- The error markup `showLoadError` writes into the placeholder. -/
def loadErrorHTML : String :=
  "<strong>Error loading .riv file</strong><br>\n" ++
  "Please ensure your file is placed in the <code>/public</code> folder\n" ++
  "and update the path in <code>main.js</code>"

/-- `showLoadError()` of the generic variant: rewrite the placeholder's
HTML and turn it red. -/
def showLoadError (p : Page) : Page :=
  { p with
    placeholderHTML := loadErrorHTML
    placeholderColor := "#ff6b6b" }

/-- The enum variant's `onLoadError`: `console.error('Error loading Rive
file:', error)` and nothing else. -/
def enumOnLoadError (err : String) (p : Page) : Page :=
  { p with consoleErrors := p.consoleErrors ++ ["Error loading Rive file: " ++ err] }

/-- The generic variant's `onLoadError`: log the cause, then
`showLoadError()`. -/
def genericOnLoadError (err : String) (p : Page) : Page :=
  showLoadError (enumOnLoadError err p)

/-! ### Generic variant: state-machine inputs and controls -/

/-- A value writable into a state-machine input. -/
inductive JsVal where
  | b (v : Bool)
  | n (v : ℚ)
deriving DecidableEq, Repr

/-- One state-machine input handle: name, Rive type tag (56 = Trigger,
59 = Boolean, 58 = Number), current value, and a count of `fire()` calls
(so that firing is observable). -/
structure SMInput where
  name : String
  ty : Nat
  value : JsVal
  fireCount : Nat
deriving DecidableEq, Repr

/-- Only trigger handles expose a `fire` method. -/
def hasFire (i : SMInput) : Bool := i.ty == 56

/-- The `stateMachineInputs` array. -/
structure GenState where
  inputs : List SMInput
deriving DecidableEq, Repr

/-- Update the first list entry satisfying `p` (JavaScript `find` returns a
reference to the first match; mutation through it touches only that entry). -/
def updateFirst (p : SMInput → Bool) (f : SMInput → SMInput) :
    List SMInput → List SMInput
  | [] => []
  | x :: xs => if p x then f x :: xs else x :: updateFirst p f xs

/-- `triggerInput(name)`: find the input by name; if found and it has
`fire`, fire it; otherwise do nothing. -/
def triggerInput (nm : String) (st : GenState) : GenState :=
  match st.inputs.find? (fun i => i.name == nm) with
  | some i =>
    if hasFire i then
      { inputs := updateFirst (fun j => j.name == nm)
          (fun j => { j with fireCount := j.fireCount + 1 }) st.inputs }
    else st
  | none => st

/-- `setBooleanInput(name, value)`: find the input by name; if found, write
the boolean through; otherwise do nothing. -/
def setBooleanInput (nm : String) (v : Bool) (st : GenState) : GenState :=
  match st.inputs.find? (fun i => i.name == nm) with
  | some _ =>
    { inputs := updateFirst (fun j => j.name == nm)
        (fun j => { j with value := JsVal.b v }) st.inputs }
  | none => st

/-- `setNumberInput(name, value)`: find the input by name; if found, write
the number through; otherwise do nothing. -/
def setNumberInput (nm : String) (v : ℚ) (st : GenState) : GenState :=
  match st.inputs.find? (fun i => i.name == nm) with
  | some _ =>
    { inputs := updateFirst (fun j => j.name == nm)
        (fun j => { j with value := JsVal.n v }) st.inputs }
  | none => st

/-! ### Generic variant: the number control -/

/-- The range element created by `createNumberControl`, with the attributes
the code sets. -/
structure NumberSlider where
  min : ℚ
  max : ℚ
  step : ℚ
  value : ℚ
deriving DecidableEq, Repr

/-- A number control binding: the bound input's value, the slider, and the
paired text readout. -/
structure NumberControl where
  input : ℚ
  slider : NumberSlider
  readout : String
deriving DecidableEq, Repr

/-- `createNumberControl`: a range control with `min = 0`, `max = 100`,
`step = 0.1`, initial position `input.value`, and the readout initially
showing `input.value.toFixed(1)`. -/
def createNumberControl (inputValue : ℚ) : NumberControl :=
  { input := inputValue
    slider := { min := 0, max := 100, step := 1 / 10, value := inputValue }
    readout := jsToFixed1 inputValue }

/-- The slider's `input` event listener: the browser has set the control's
value string to `raw`; the handler parses it with `parseFloat`, writes the
number through to the input and rewrites the readout with `toFixed(1)`.
(A range control's value string always parses; the `none` branch is the
unreachable `NaN` case.) -/
def numberSliderInput (raw : String) (c : NumberControl) : NumberControl :=
  match jsParseFloat raw with
  | some v =>
    { input := v
      slider := { c.slider with value := v }
      readout := jsToFixed1 v }
  | none => c

/-! ### Claims about the generic variant and the load-error paths -/

/-- C5 counterexample: the enum variant's `onLoadError` leaves the visible
placeholder text untouched (it only logs), so load failure does not always
mutate the placeholder to an error message. -/
theorem enum_load_error_placeholder_unchanged_cex :
    (enumOnLoadError "404" (Page.mk "Loading animation..." "" [])).placeholderHTML
      = "Loading animation..." ∧
    (enumOnLoadError "404" (Page.mk "Loading animation..." "" [])).placeholderHTML
      ≠ loadErrorHTML := by decide

/-- C5 (amended): on asset-load failure both variants log the cause and
neither retries (the handlers are plain total functions of the page state);
the generic variant additionally rewrites the placeholder to the error
markup and turns it red, while the enum variant leaves the placeholder
exactly as it was. -/
theorem load_error_paths (err : String) (p : Page) :
    (enumOnLoadError err p).consoleErrors
      = p.consoleErrors ++ ["Error loading Rive file: " ++ err] ∧
    (enumOnLoadError err p).placeholderHTML = p.placeholderHTML ∧
    (enumOnLoadError err p).placeholderColor = p.placeholderColor ∧
    (genericOnLoadError err p).consoleErrors
      = p.consoleErrors ++ ["Error loading Rive file: " ++ err] ∧
    (genericOnLoadError err p).placeholderHTML = loadErrorHTML ∧
    (genericOnLoadError err p).placeholderColor = "#ff6b6b" :=
  ⟨rfl, rfl, rfl, rfl, rfl, rfl⟩

/-- C8: the generated number control is a range control over `[0, 100]`
with step `0.1`, its initial position and readout mirror the input's
current value, and every interaction writes the parsed value through and
reformats the readout to one decimal place. -/
theorem number_control_spec (x : ℚ) :
    (createNumberControl x).slider.min = 0 ∧
    (createNumberControl x).slider.max = 100 ∧
    (createNumberControl x).slider.step = 1 / 10 ∧
    (createNumberControl x).slider.value = x ∧
    (createNumberControl x).input = x ∧
    (createNumberControl x).readout = jsToFixed1 x ∧
    (∀ (raw : String) (v : ℚ) (c : NumberControl), jsParseFloat raw = some v →
      (numberSliderInput raw c).input = v ∧
      (numberSliderInput raw c).slider.value = v ∧
      (numberSliderInput raw c).readout = jsToFixed1 v) := by
  refine ⟨rfl, rfl, rfl, rfl, rfl, rfl, ?_⟩
  intro raw v c hv
  unfold numberSliderInput
  rw [hv]
  exact ⟨rfl, rfl, rfl⟩

/-- Witness for C8: moving the slider of a control bound to value 5 to
`"37.4"` writes `187/5` through and shows `"37.4"`. -/
theorem number_control_spec_witness :
    (numberSliderInput "37.4" (createNumberControl 5)).input = 187 / 5 ∧
    (numberSliderInput "37.4" (createNumberControl 5)).slider.value = 187 / 5 ∧
    (numberSliderInput "37.4" (createNumberControl 5)).readout
      = jsToFixed1 (187 / 5) :=
  (number_control_spec 5).2.2.2.2.2.2 "37.4" (187 / 5) (createNumberControl 5)
    (by
      have h1 : jsParseFloat "37.4"
          = some ((((0 * 10 + ('3'.toNat - '0'.toNat)) * 10
              + ('7'.toNat - '0'.toNat) : Nat) : ℚ)
            + (((0 * 10 + ('4'.toNat - '0'.toNat)) : Nat) : ℚ)
              / (10 : ℚ) ^ (0 + 1)) := rfl
      rw [h1]
      norm_num [show '3'.toNat - '0'.toNat = 3 from rfl,
        show '7'.toNat - '0'.toNat = 7 from rfl,
        show '4'.toNat - '0'.toNat = 4 from rfl])

/-- C9: each exported helper is a silent no-op when no input carries the
requested name: the input list — and with it every input's value and fire
count — is returned unchanged. -/
theorem helpers_noop_on_unknown_name (nm : String) (st : GenState)
    (h : ∀ i ∈ st.inputs, i.name ≠ nm) :
    (∀ bv : Bool, setBooleanInput nm bv st = st) ∧
    (∀ nv : ℚ, setNumberInput nm nv st = st) ∧
    triggerInput nm st = st := by
  have hfind : st.inputs.find? (fun i => i.name == nm) = none := by
    rw [List.find?_eq_none]
    intro i hi
    simpa using h i hi
  refine ⟨?_, ?_, ?_⟩
  · intro bv; unfold setBooleanInput; rw [hfind]
  · intro nv; unfold setNumberInput; rw [hfind]
  · unfold triggerInput; rw [hfind]

/-- Witness for C9: with one input named `"jump"`, asking for `"walk"`
changes nothing. -/
theorem helpers_noop_on_unknown_name_witness :
    setBooleanInput "walk" true (GenState.mk [SMInput.mk "jump" 56 (JsVal.b false) 0])
      = GenState.mk [SMInput.mk "jump" 56 (JsVal.b false) 0] ∧
    setNumberInput "walk" 3 (GenState.mk [SMInput.mk "jump" 56 (JsVal.b false) 0])
      = GenState.mk [SMInput.mk "jump" 56 (JsVal.b false) 0] ∧
    triggerInput "walk" (GenState.mk [SMInput.mk "jump" 56 (JsVal.b false) 0])
      = GenState.mk [SMInput.mk "jump" 56 (JsVal.b false) 0] := by
  have h := helpers_noop_on_unknown_name "walk"
    (GenState.mk [SMInput.mk "jump" 56 (JsVal.b false) 0]) (by decide)
  exact ⟨h.1 true, h.2.1 3, h.2.2⟩

end RiveGargoyle
